import Mathlib

/-!
Verification development for the `json-validate-codegen` repository.

The repository is a schema-to-code compiler backend: an `Encoder` walks the
schema trees of a registry and drives an abstract `Emitter` which writes
target-language source text to an output sink.  We embed the walker
(`codegen` package) and the TypeScript emitter (`typescript` package)
shallowly:

* the mutable `NamePath` is threaded explicitly through the recursion
  (its value is returned by every call, so the state it has after an
  error return is observable, exactly as for the Go pointer);
* the shared `io.Writer` sink and the calls made to the abstract
  `Emitter` interface are modelled by returning, from every walk call,
  the text that call appended and the list of emitter invocations it
  performed (the Go walker only ever appends to the sink);
* Go's `(string, error)` returns become `Except String String`;
* Go maps that the code iterates (`Properties`, `OptionalProperties`,
  `DiscriminatorMapping`, `Registry.Schemas`) are modelled as
  association lists carrying one concrete iteration order; Go leaves
  the iteration order of a map unspecified, so facts that are claimed
  for "a fixed schema tree" must hold for every order of these lists.
-/

namespace codegen

/-- Segment of a `NamePath`; mirrors Go `NamePathSegment` with its four
fields and their zero values. -/
structure NamePathSegment where
  elements : Bool := false
  values : Bool := false
  variants : Bool := false
  property : String := ""
deriving DecidableEq, Repr

/-- Mirrors Go `NamePath`: the originating root schema's identifier plus the
ordered segment stack. -/
structure NamePath where
  schemaID : String
  segments : List NamePathSegment
deriving DecidableEq, Repr

/-- Go `NamePath.Push`: appends a segment. -/
def NamePath.push (np : NamePath) (seg : NamePathSegment) : NamePath :=
  { np with segments := np.segments ++ [seg] }

/-- Go `NamePath.Pop`: removes the last segment. -/
def NamePath.pop (np : NamePath) : NamePath :=
  { np with segments := np.segments.dropLast }

/-- Descriptor passed to `EmitStruct` (Go `Struct`). -/
structure Struct where
  path : NamePath
  requiredProperties : List (String × String)
  optionalProperties : List (String × String)
deriving DecidableEq, Repr

/-- Descriptor passed to `EmitArray` (Go `Array`). -/
structure Array where
  path : NamePath
  elements : String
deriving DecidableEq, Repr

/-- Descriptor passed to `EmitValues` (Go `Values`). -/
structure Values where
  path : NamePath
  values : String
deriving DecidableEq, Repr

/-- Descriptor passed to `EmitVariant` (Go `Variant`). -/
structure Variant where
  path : NamePath
  tagName : String
  tagValue : String
  requiredProperties : List (String × String)
  optionalProperties : List (String × String)
deriving DecidableEq, Repr

/-- Descriptor passed to `EmitUnion` (Go `Union`). -/
structure Union where
  path : NamePath
  variants : List String
deriving DecidableEq, Repr

/-- One invocation of a composite `Emitter` operation, with the descriptor
the walker passed to it. -/
inductive EmitCall where
  | struct (d : Struct)
  | array (d : Array)
  | values (d : Values)
  | variant (d : Variant)
  | union (d : Union)
deriving DecidableEq, Repr

/-- The `NamePath` carried by the descriptor of an emitter invocation. -/
def EmitCall.path : EmitCall → NamePath
  | .struct d => d.path
  | .array d => d.path
  | .values d => d.path
  | .variant d => d.path
  | .union d => d.path

/-- The abstract `Emitter` interface.  A composite operation writes text to
the sink and returns the emitted type's name, or fails; we model it as
returning `(name, text written)`. -/
structure Emitter where
  primitiveEmpty : String
  primitiveNull : String
  primitiveBoolean : String
  primitiveNumber : String
  primitiveString : String
  emitStruct : Struct → Except String (String × String)
  emitArray : Array → Except String (String × String)
  emitValues : Values → Except String (String × String)
  emitVariant : Variant → Except String (String × String)
  emitUnion : Union → Except String (String × String)

/-- The primitive types of the external `jsonvalidate` library that
`Encoder.walk` switches on.  `otherType` stands for any value of the
library's type enum other than the four the walker handles (the Go
`switch` has no case for such a value and falls through). -/
inductive SchemaType where
  | null
  | boolean
  | number
  | string
  | otherType
deriving DecidableEq, Repr

/-- The external schema node, restricted to the fields `Encoder.walk` reads
for each kind.  A `discriminator` node carries, besides its mapping, its
own `properties`/`optionalProperties` fields (in Go every `Schema` struct
has these fields and the discriminator case reads them).  `otherKind`
stands for any schema kind the walker's `switch` has no case for. -/
inductive Schema where
  | empty : Schema
  | type (t : SchemaType) : Schema
  | elements (child : Schema) : Schema
  | properties (props optionalProps : List (String × Schema)) : Schema
  | values (child : Schema) : Schema
  | discriminator (discriminatorPropertyName : String)
      (props optionalProps : List (String × Schema))
      (discriminatorMapping : List (String × Schema)) : Schema
  | otherKind : Schema

/-- Go test `variant.Kind != jsonvalidate.SchemaKindProperties`, as a
Boolean on the embedded node. -/
def Schema.isProperties : Schema → Bool
  | .properties _ _ => true
  | _ => false

/-- The error the walker raises for a discriminator mapping value that is
not of kind properties (Go line 203). -/
def mappingErrorMessage : String :=
  "schemas within `mapping` must use only properties and optionalProperties"

/-- Result of one walk call: the `NamePath` as the call left it, the text
this call appended to the sink, the emitter invocations it made, and the
returned value or error. -/
structure WalkOut (α : Type) where
  path : NamePath
  out : String
  calls : List EmitCall
  res : Except String α

mutual

/-- Embedding of Go `Encoder.walk` (src/unnamed/part_000, lines 125-258). -/
def walk (E : Emitter) (s : Schema) (p : NamePath) : WalkOut String :=
  match s with
  | .empty => ⟨p, "", [], .ok E.primitiveEmpty⟩
  | .type t =>
    match t with
    | .null => ⟨p, "", [], .ok E.primitiveNull⟩
    | .boolean => ⟨p, "", [], .ok E.primitiveBoolean⟩
    | .number => ⟨p, "", [], .ok E.primitiveNumber⟩
    | .string => ⟨p, "", [], .ok E.primitiveString⟩
    | .otherType => ⟨p, "", [], .ok ""⟩
  | .elements child =>
    let rc := walk E child (p.push { elements := true })
    match rc.res with
    | .error e => ⟨rc.path, rc.out, rc.calls, .error e⟩
    | .ok name =>
      let p2 := rc.path.pop
      let d : Array := ⟨p2, name⟩
      match E.emitArray d with
      | .error e => ⟨p2, rc.out, rc.calls ++ [.array d], .error e⟩
      | .ok nb => ⟨p2, rc.out ++ nb.2, rc.calls ++ [.array d], .ok nb.1⟩
  | .properties props optionalProps =>
    let rr := walkProps E props p
    match rr.res with
    | .error e => ⟨rr.path, rr.out, rr.calls, .error e⟩
    | .ok required =>
      let ro := walkProps E optionalProps rr.path
      match ro.res with
      | .error e => ⟨ro.path, rr.out ++ ro.out, rr.calls ++ ro.calls, .error e⟩
      | .ok optional =>
        let d : Struct := ⟨ro.path, required, optional⟩
        match E.emitStruct d with
        | .error e =>
          ⟨ro.path, rr.out ++ ro.out, rr.calls ++ ro.calls ++ [.struct d], .error e⟩
        | .ok nb =>
          ⟨ro.path, rr.out ++ ro.out ++ nb.2, rr.calls ++ ro.calls ++ [.struct d], .ok nb.1⟩
  | .values child =>
    let rc := walk E child (p.push { values := true })
    match rc.res with
    | .error e => ⟨rc.path, rc.out, rc.calls, .error e⟩
    | .ok name =>
      let p2 := rc.path.pop
      let d : Values := ⟨p2, name⟩
      match E.emitValues d with
      | .error e => ⟨p2, rc.out, rc.calls ++ [.values d], .error e⟩
      | .ok nb => ⟨p2, rc.out ++ nb.2, rc.calls ++ [.values d], .ok nb.1⟩
  | .discriminator tagName props optionalProps mapping =>
    let rm := walkMapping E tagName props optionalProps mapping (p.push { variants := true })
    match rm.res with
    | .error e => ⟨rm.path, rm.out, rm.calls, .error e⟩
    | .ok variants =>
      let p2 := rm.path.pop
      let d : Union := ⟨p2, variants⟩
      match E.emitUnion d with
      | .error e => ⟨p2, rm.out, rm.calls ++ [.union d], .error e⟩
      | .ok nb => ⟨p2, rm.out ++ nb.2, rm.calls ++ [.union d], .ok nb.1⟩
  | .otherKind => ⟨p, "", [], .ok ""⟩
termination_by sizeOf s

/-- The properties-resolution loop of `Encoder.walk` (lines 154-176, and
repeated at 208-230): for each `(key, value)` push a property segment,
walk the value, record `key -> name`, pop. -/
def walkProps (E : Emitter) (l : List (String × Schema)) (p : NamePath) :
    WalkOut (List (String × String)) :=
  match l with
  | [] => ⟨p, "", [], .ok []⟩
  | (key, value) :: rest =>
    let rc := walk E value (p.push { property := key })
    match rc.res with
    | .error e => ⟨rc.path, rc.out, rc.calls, .error e⟩
    | .ok name =>
      let rr := walkProps E rest rc.path.pop
      match rr.res with
      | .error e => ⟨rr.path, rc.out ++ rr.out, rc.calls ++ rr.calls, .error e⟩
      | .ok names => ⟨rr.path, rc.out ++ rr.out, rc.calls ++ rr.calls, .ok ((key, name) :: names)⟩
termination_by sizeOf l

/-- The discriminator mapping loop of `Encoder.walk` (lines 199-247): for
each `(key, variantSchema)`, check the variant's kind, push a property
segment named after the tag value, resolve the *discriminator schema's
own* `props`/`optionalProps`, call `EmitVariant`, pop, and collect the
variant names. -/
def walkMapping (E : Emitter) (tagName : String)
    (props optionalProps : List (String × Schema))
    (m : List (String × Schema)) (p : NamePath) : WalkOut (List String) :=
  match m with
  | [] => ⟨p, "", [], .ok []⟩
  | (key, variantSchema) :: rest =>
    if variantSchema.isProperties then
      let rr := walkProps E props (p.push { property := key })
      match rr.res with
      | .error e => ⟨rr.path, rr.out, rr.calls, .error e⟩
      | .ok required =>
        let ro := walkProps E optionalProps rr.path
        match ro.res with
        | .error e => ⟨ro.path, rr.out ++ ro.out, rr.calls ++ ro.calls, .error e⟩
        | .ok optional =>
          let d : Variant := ⟨ro.path, tagName, key, required, optional⟩
          match E.emitVariant d with
          | .error e =>
            ⟨ro.path, rr.out ++ ro.out, rr.calls ++ ro.calls ++ [.variant d], .error e⟩
          | .ok nb =>
            let rm := walkMapping E tagName props optionalProps rest ro.path.pop
            match rm.res with
            | .error e =>
              ⟨rm.path, rr.out ++ ro.out ++ nb.2 ++ rm.out,
                rr.calls ++ ro.calls ++ [.variant d] ++ rm.calls, .error e⟩
            | .ok names =>
              ⟨rm.path, rr.out ++ ro.out ++ nb.2 ++ rm.out,
                rr.calls ++ ro.calls ++ [.variant d] ++ rm.calls, .ok (nb.1 :: names)⟩
    else
      ⟨p, "", [], .error mappingErrorMessage⟩
termination_by sizeOf props + sizeOf optionalProps + sizeOf m

end

/-- Result of `Encoder.Run`: accumulated sink text, all emitter
invocations, and the returned error if any. -/
structure RunResult where
  out : String
  calls : List EmitCall
  res : Except String Unit
deriving Repr

/-- Embedding of Go `Encoder.Run` (lines 114-123): one fresh `NamePath`
per root schema, seeded with the root's identifier and an empty segment
list; the first error aborts the whole run. -/
def run (E : Emitter) : List (String × Schema) → RunResult
  | [] => ⟨"", [], .ok ()⟩
  | (id, s) :: rest =>
    let r := walk E s ⟨id, []⟩
    match r.res with
    | .error e => ⟨r.out, r.calls, .error e⟩
    | .ok _ =>
      let rr := run E rest
      ⟨r.out ++ rr.out, r.calls ++ rr.calls, rr.res⟩

end codegen

namespace typescript

/-- Escaping applied by Go `html/template` to every interpolated value in
plain-text context: the five HTML-special characters are replaced. -/
def htmlEscapeChar (c : Char) : String :=
  if c = '&' then "&amp;"
  else if c = '<' then "&lt;"
  else if c = '>' then "&gt;"
  else if c = Char.ofNat 34 then "&#34;"
  else if c = Char.ofNat 39 then "&#39;"
  else String.singleton c

/-- Escape a whole interpolated string as `html/template` does. -/
def htmlEscape (s : String) : String :=
  String.join (s.toList.map htmlEscapeChar)

/-- The name-building loop that every `Emitter` method of the TypeScript
emitter repeats verbatim (src/typescript/emitter.go, e.g. lines 108-119):
start from `"Default"` and append a token per path segment, testing
`Elements`, then `Variants`, then `Values`, else the property name. -/
def typeName (segs : List codegen.NamePathSegment) : String :=
  segs.foldl (fun name s =>
    if s.elements then name ++ "Element"
    else if s.variants then name ++ "Variant"
    else if s.values then name ++ "Value"
    else name ++ s.property) "Default"

/-- Rendering of the `arrayFmt` template (emitter.go lines 44-47). -/
def arrayFmt (name elements : String) : String :=
  "export type " ++ htmlEscape name ++ " = " ++ htmlEscape elements ++ "[];\n"

/-- Rendering of the `structFmt` template (emitter.go lines 49-56). -/
def structFmt (name : String) (properties : List (String × String)) : String :=
  "export interface " ++ htmlEscape name ++ " \x7b" ++
    String.join (properties.map (fun pr =>
      "\n  " ++ htmlEscape pr.1 ++ ": " ++ htmlEscape pr.2 ++ ";")) ++
    "\n\x7d\n"

/-- Rendering of the `valuesFmt` template (emitter.go lines 58-63). -/
def valuesFmt (name values : String) : String :=
  "export interface " ++ htmlEscape name ++ " \x7b\n\t[key: string]: " ++
    htmlEscape values ++ ";\n\x7d\n"

/-- Rendering of the `variantFmt` template (emitter.go lines 65-73).  Note
that `EmitVariant` never executes this template; it is defined here because
the source defines it. -/
def variantFmt (name tagName tagValue : String) (properties : List (String × String)) : String :=
  "export interface " ++ htmlEscape name ++ " \x7b\n\t" ++ htmlEscape tagName ++
    ": \"" ++ htmlEscape tagValue ++ "\";" ++
    String.join (properties.map (fun pr =>
      "\n  " ++ htmlEscape pr.1 ++ ": " ++ htmlEscape pr.2 ++ ";")) ++
    "\n\x7d\n"

/-- Rendering of the `unionFmt` template (emitter.go lines 75-81); the `|`
separator is suppressed for index zero. -/
def unionFmt (name : String) (variants : List String) : String :=
  "export type " ++ htmlEscape name ++ " =" ++
    String.join (variants.enum.map (fun iv =>
      "\n\t" ++ (if iv.1 = 0 then "" else "|") ++ " " ++ htmlEscape iv.2)) ++ "\n"

/-- The property list built by `EmitStruct`/`EmitVariant`: required
properties first, then optional properties with `?` appended to the name
(emitter.go lines 149-161 and 211-223). -/
def structProperties (required optional : List (String × String)) : List (String × String) :=
  required ++ optional.map (fun pr => (pr.1 ++ "?", pr.2))

/-- Embedding of the TypeScript `Emitter` (src/typescript/emitter.go).
`EmitVariant` builds `variantArgs` including the tag fields but then
executes `structFmt` (line 225), so the rendered text is the struct one. -/
def emitter : codegen.Emitter where
  primitiveEmpty := "any"
  primitiveNull := "null"
  primitiveBoolean := "boolean"
  primitiveNumber := "number"
  primitiveString := "string"
  emitStruct := fun d =>
    let name := typeName d.path.segments
    .ok (name, structFmt name (structProperties d.requiredProperties d.optionalProperties))
  emitArray := fun d =>
    let name := typeName d.path.segments
    .ok (name, arrayFmt name d.elements)
  emitValues := fun d =>
    let name := typeName d.path.segments
    .ok (name, valuesFmt name d.values)
  emitVariant := fun d =>
    let name := typeName d.path.segments
    .ok (name, structFmt name (structProperties d.requiredProperties d.optionalProperties))
  emitUnion := fun d =>
    let name := typeName d.path.segments
    .ok (name, unionFmt name d.variants)

/-- The name the TypeScript emitter generates for an emitter invocation:
every `Emit*` method derives it from the descriptor's path alone. -/
def callName (c : codegen.EmitCall) : String :=
  typeName c.path.segments

end typescript

namespace codegen

/-- One entry of a properties association list resolves successfully when
walked from under `p` with its property segment pushed. -/
def childOk (E : Emitter) (p : NamePath) (kv : String × Schema) : Prop :=
  ∃ n, (walk E kv.2 (p.push { property := kv.1 })).res = Except.ok n

end codegen

namespace codegen

theorem NamePath.pop_push (np : NamePath) (seg : NamePathSegment) :
    (np.push seg).pop = np := by
  cases np
  simp [push, pop]

theorem NamePath.push_segments_length (np : NamePath) (seg : NamePathSegment) :
    (np.push seg).segments.length = np.segments.length + 1 := by
  simp [push]

mutual

/-- If a `walk` call returns without error, it leaves the `NamePath`
exactly as it found it: every pushed segment was popped. -/
theorem walk_path_ok (E : Emitter) (s : Schema) (p : NamePath) :
    ∀ n, (walk E s p).res = Except.ok n → (walk E s p).path = p := by
  cases s with
  | empty => intro n h; simp [walk]
  | type t => cases t <;> (intro n h; simp [walk])
  | otherKind => intro n h; simp [walk]
  | elements child =>
    have ih := walk_path_ok E child (p.push { elements := true })
    intro n
    simp only [walk]
    split
    · simp
    · next name heq =>
      split
      · simp
      · intro h
        rw [ih name heq, NamePath.pop_push]
  | values child =>
    have ih := walk_path_ok E child (p.push { values := true })
    intro n
    simp only [walk]
    split
    · simp
    · next name heq =>
      split
      · simp
      · intro h
        rw [ih name heq, NamePath.pop_push]
  | properties props optionalProps =>
    have ihr := walkProps_path_ok E props p
    intro n
    simp only [walk]
    split
    · simp
    · next required heqr =>
      have ihr' := ihr required heqr
      have iho := walkProps_path_ok E optionalProps (walkProps E props p).path
      split
      · simp
      · next optional heqo =>
        have iho' := iho optional heqo
        split
        · simp
        · intro h
          rw [iho', ihr']
  | discriminator tagName props optionalProps mapping =>
    have ihm := walkMapping_path_ok E tagName props optionalProps mapping
      (p.push { variants := true })
    intro n
    simp only [walk]
    split
    · simp
    · next variants heqm =>
      have ihm' := ihm variants heqm
      split
      · simp
      · intro h
        rw [ihm', NamePath.pop_push]
termination_by sizeOf s

/-- A successful properties loop restores the `NamePath`. -/
theorem walkProps_path_ok (E : Emitter) (l : List (String × Schema)) (p : NamePath) :
    ∀ ns, (walkProps E l p).res = Except.ok ns → (walkProps E l p).path = p := by
  match l with
  | [] => intro ns h; simp [walkProps]
  | (key, value) :: rest =>
    have ihc := walk_path_ok E value (p.push { property := key })
    intro ns
    simp only [walkProps]
    split
    · simp
    · next name heqc =>
      have hc := ihc name heqc
      have ihr := walkProps_path_ok E rest (walk E value (p.push { property := key })).path.pop
      split
      · simp
      · next names heqr =>
        intro h
        rw [ihr names heqr, hc, NamePath.pop_push]
termination_by sizeOf l

/-- A successful discriminator mapping loop restores the `NamePath` (the
variants marker it runs under is popped by the caller). -/
theorem walkMapping_path_ok (E : Emitter) (tagName : String)
    (props optionalProps : List (String × Schema))
    (m : List (String × Schema)) (p : NamePath) :
    ∀ vs, (walkMapping E tagName props optionalProps m p).res = Except.ok vs →
      (walkMapping E tagName props optionalProps m p).path = p := by
  match m with
  | [] => intro vs h; simp [walkMapping]
  | (key, variantSchema) :: rest =>
    intro vs
    simp only [walkMapping]
    split
    · next hkind =>
      have ihr := walkProps_path_ok E props (p.push { property := key })
      split
      · simp
      · next required heqr =>
        have hr := ihr required heqr
        have iho := walkProps_path_ok E optionalProps
          (walkProps E props (p.push { property := key })).path
        split
        · simp
        · next optional heqo =>
          have ho := iho optional heqo
          split
          · simp
          · next nb hemit =>
            have ihm := walkMapping_path_ok E tagName props optionalProps rest
              (walkProps E optionalProps
                (walkProps E props (p.push { property := key })).path).path.pop
            split
            · simp
            · next names heqm =>
              intro h
              rw [ihm names heqm, ho, hr, NamePath.pop_push]
    · intro h
      simp at h
termination_by sizeOf props + sizeOf optionalProps + sizeOf m

end

end codegen

namespace codegen

mutual

/-- Every emitter invocation a `walk` call performs carries a path at
least as deep as the path the call started from (a node's own emission
happens at its own depth, its descendants' strictly deeper). -/
theorem walk_calls_depth (E : Emitter) (s : Schema) (p : NamePath) :
    ∀ c ∈ (walk E s p).calls, p.segments.length ≤ c.path.segments.length := by
  cases s with
  | empty => simp [walk]
  | type t => cases t <;> simp [walk]
  | otherKind => simp [walk]
  | elements child =>
    have ih := walk_calls_depth E child (p.push { elements := true })
    simp only [walk]
    split
    · intro c hc
      have := ih c hc
      rw [NamePath.push_segments_length] at this
      omega
    · next name heq =>
      have hpath := walk_path_ok E child (p.push { elements := true }) name heq
      split <;>
      · intro c hc
        rw [List.mem_append] at hc
        rcases hc with hc | hc
        · have := ih c hc
          rw [NamePath.push_segments_length] at this
          omega
        · simp at hc
          subst hc
          simp [EmitCall.path, hpath, NamePath.pop_push]
  | values child =>
    have ih := walk_calls_depth E child (p.push { values := true })
    simp only [walk]
    split
    · intro c hc
      have := ih c hc
      rw [NamePath.push_segments_length] at this
      omega
    · next name heq =>
      have hpath := walk_path_ok E child (p.push { values := true }) name heq
      split <;>
      · intro c hc
        rw [List.mem_append] at hc
        rcases hc with hc | hc
        · have := ih c hc
          rw [NamePath.push_segments_length] at this
          omega
        · simp at hc
          subst hc
          simp [EmitCall.path, hpath, NamePath.pop_push]
  | properties props optionalProps =>
    have ihr := walkProps_calls_depth E props p
    simp only [walk]
    split
    · intro c hc
      have := ihr c hc
      omega
    · next required heqr =>
      have hr := walkProps_path_ok E props p required heqr
      have iho := walkProps_calls_depth E optionalProps (walkProps E props p).path
      split
      · intro c hc
        rw [List.mem_append] at hc
        rcases hc with hc | hc
        · have := ihr c hc
          omega
        · have := iho c hc
          rw [hr] at this
          omega
      · next optional heqo =>
        have ho := walkProps_path_ok E optionalProps (walkProps E props p).path optional heqo
        split <;>
        · intro c hc
          rw [List.mem_append, List.mem_append] at hc
          rcases hc with (hc | hc) | hc
          · have := ihr c hc
            omega
          · have := iho c hc
            rw [hr] at this
            omega
          · simp at hc
            subst hc
            simp only [EmitCall.path]
            rw [ho, hr]
  | discriminator tagName props optionalProps mapping =>
    have ihm := walkMapping_calls_depth E tagName props optionalProps mapping
      (p.push { variants := true })
    simp only [walk]
    split
    · intro c hc
      have := ihm c hc
      rw [NamePath.push_segments_length] at this
      omega
    · next variants heqm =>
      have hm := walkMapping_path_ok E tagName props optionalProps mapping
        (p.push { variants := true }) variants heqm
      split <;>
      · intro c hc
        rw [List.mem_append] at hc
        rcases hc with hc | hc
        · have := ihm c hc
          rw [NamePath.push_segments_length] at this
          omega
        · simp at hc
          subst hc
          simp [EmitCall.path, hm, NamePath.pop_push]
termination_by sizeOf s

/-- Every emitter invocation performed by the properties loop is strictly
deeper than the path the loop runs at. -/
theorem walkProps_calls_depth (E : Emitter) (l : List (String × Schema)) (p : NamePath) :
    ∀ c ∈ (walkProps E l p).calls, p.segments.length + 1 ≤ c.path.segments.length := by
  match l with
  | [] => simp [walkProps]
  | (key, value) :: rest =>
    have ihc := walk_calls_depth E value (p.push { property := key })
    simp only [walkProps]
    split
    · intro c hc
      have := ihc c hc
      rw [NamePath.push_segments_length] at this
      omega
    · next name heqc =>
      have hc' := walk_path_ok E value (p.push { property := key }) name heqc
      have ihr := walkProps_calls_depth E rest (walk E value (p.push { property := key })).path.pop
      split <;>
      · intro c hc
        rw [List.mem_append] at hc
        rcases hc with hc | hc
        · have := ihc c hc
          rw [NamePath.push_segments_length] at this
          omega
        · have := ihr c hc
          rw [hc', NamePath.pop_push] at this
          omega
termination_by sizeOf l

/-- Every emitter invocation performed by the discriminator mapping loop
is strictly deeper than the path the loop runs at (in particular deeper
than the discriminator node's own path, which lies one below). -/
theorem walkMapping_calls_depth (E : Emitter) (tagName : String)
    (props optionalProps : List (String × Schema))
    (m : List (String × Schema)) (p : NamePath) :
    ∀ c ∈ (walkMapping E tagName props optionalProps m p).calls,
      p.segments.length + 1 ≤ c.path.segments.length := by
  match m with
  | [] => simp [walkMapping]
  | (key, variantSchema) :: rest =>
    simp only [walkMapping]
    split
    · next hkind =>
      have ihr := walkProps_calls_depth E props (p.push { property := key })
      split
      · intro c hc
        have := ihr c hc
        rw [NamePath.push_segments_length] at this
        omega
      · next required heqr =>
        have hr := walkProps_path_ok E props (p.push { property := key }) required heqr
        have iho := walkProps_calls_depth E optionalProps
          (walkProps E props (p.push { property := key })).path
        split
        · intro c hc
          rw [List.mem_append] at hc
          rcases hc with hc | hc
          · have := ihr c hc
            rw [NamePath.push_segments_length] at this
            omega
          · have := iho c hc
            rw [hr, NamePath.push_segments_length] at this
            omega
        · next optional heqo =>
          have ho := walkProps_path_ok E optionalProps
            (walkProps E props (p.push { property := key })).path optional heqo
          split
          · intro c hc
            rw [List.mem_append, List.mem_append] at hc
            rcases hc with (hc | hc) | hc
            · have := ihr c hc
              rw [NamePath.push_segments_length] at this
              omega
            · have := iho c hc
              rw [hr, NamePath.push_segments_length] at this
              omega
            · simp at hc
              subst hc
              simp only [EmitCall.path]
              rw [ho, hr, NamePath.push_segments_length]
          · next nb hemit =>
            have ihm := walkMapping_calls_depth E tagName props optionalProps rest
              (walkProps E optionalProps
                (walkProps E props (p.push { property := key })).path).path.pop
            split <;>
            · intro c hc
              rw [List.mem_append, List.mem_append, List.mem_append] at hc
              rcases hc with ((hc | hc) | hc) | hc
              · have := ihr c hc
                rw [NamePath.push_segments_length] at this
                omega
              · have := iho c hc
                rw [hr, NamePath.push_segments_length] at this
                omega
              · simp at hc
                subst hc
                simp only [EmitCall.path]
                rw [ho, hr, NamePath.push_segments_length]
              · have := ihm c hc
                rw [ho, hr, NamePath.pop_push] at this
                omega
    · simp
termination_by sizeOf props + sizeOf optionalProps + sizeOf m

end

end codegen

namespace codegen

/-- If any entry of the discriminator mapping has a value that is not of
kind properties, the mapping loop fails. -/
theorem walkMapping_bad_entry_error (E : Emitter) (tagName : String)
    (props optionalProps : List (String × Schema)) :
    ∀ (m : List (String × Schema)) (p : NamePath),
      (∃ kv ∈ m, kv.2.isProperties = false) →
      ∃ e, (walkMapping E tagName props optionalProps m p).res = Except.error e := by
  intro m
  induction m with
  | nil => intro p h; simp at h
  | cons head rest ih =>
    obtain ⟨key, value⟩ := head
    intro p h
    simp only [walkMapping]
    split
    · next hkind =>
      split
      · next e he => exact ⟨e, rfl⟩
      · next required heqr =>
        split
        · next e he => exact ⟨e, rfl⟩
        · next optional heqo =>
          split
          · next e he => exact ⟨e, rfl⟩
          · next nb hemit =>
            have hrest : ∃ kv ∈ rest, kv.2.isProperties = false := by
              rcases h with ⟨kv, hmem, hbad⟩
              rcases List.mem_cons.mp hmem with hkv | hkv
              · subst hkv
                simp [hkind] at hbad
              · exact ⟨kv, hkv, hbad⟩
            obtain ⟨e, he⟩ := ih _ hrest
            refine ⟨e, ?_⟩
            split
            · next e' he' =>
              rw [he'] at he
              simpa using he
            · next names heqn =>
              rw [heqn] at he
              simp at he
    · exact ⟨mappingErrorMessage, rfl⟩

/-- The contents of a properties-kind mapping value are never consulted:
replacing every mapping value by the empty properties schema gives the
same mapping-loop result. -/
theorem walkMapping_values_discarded (E : Emitter) (tagName : String)
    (props optionalProps : List (String × Schema)) :
    ∀ (m : List (String × Schema)) (p : NamePath),
      (∀ kv ∈ m, kv.2.isProperties = true) →
      walkMapping E tagName props optionalProps m p =
        walkMapping E tagName props optionalProps
          (m.map (fun kv => (kv.1, Schema.properties [] []))) p := by
  intro m
  induction m with
  | nil => intro p h; simp [walkMapping]
  | cons head rest ih =>
    obtain ⟨key, value⟩ := head
    intro p h
    have hv : value.isProperties = true := h (key, value) (List.mem_cons_self _ _)
    have hrest : ∀ kv ∈ rest, kv.2.isProperties = true :=
      fun kv hk => h kv (List.mem_cons_of_mem _ hk)
    have ih' := fun q => ih q hrest
    simp only [List.map_cons, walkMapping]
    rw [hv]
    simp only [Schema.isProperties]
    simp [ih']

/-- When every entry of a properties list resolves successfully, the loop
succeeds, restores the path, and its emitter invocations are exactly the
concatenation of the per-entry invocations, each entry walked from the
same base path with its own property segment pushed. -/
theorem walkProps_decomp (E : Emitter) (p : NamePath) :
    ∀ (l : List (String × Schema)),
      (∀ kv ∈ l, childOk E p kv) →
      (walkProps E l p).path = p ∧
      (walkProps E l p).calls =
        (l.map (fun kv => (walk E kv.2 (p.push { property := kv.1 })).calls)).flatten ∧
      ∃ names, (walkProps E l p).res = Except.ok names := by
  intro l
  induction l with
  | nil => intro h; simp [walkProps]
  | cons head rest ih =>
    obtain ⟨key, value⟩ := head
    intro h
    obtain ⟨n, hn⟩ := h (key, value) (List.mem_cons_self _ _)
    have hpath := walk_path_ok E value (p.push { property := key }) n hn
    have hrest : ∀ kv ∈ rest, childOk E p kv :=
      fun kv hk => h kv (List.mem_cons_of_mem _ hk)
    obtain ⟨ihpath, ihcalls, names, ihres⟩ := ih hrest
    simp only [walkProps, hn]
    rw [hpath, NamePath.pop_push]
    simp only [ihres]
    refine ⟨ihpath, ?_, names.cons (key, n), rfl⟩
    simp [ihcalls]

/-- `run` over a prefix of roots that all resolve successfully followed by
further roots: the prefix contributes its output and calls, and the rest
determines the final result. -/
theorem run_append_ok (E : Emitter) :
    ∀ (pre rest : List (String × Schema)),
      (∀ kv ∈ pre, ∃ n, (walk E kv.2 ⟨kv.1, []⟩).res = Except.ok n) →
      run E (pre ++ rest) =
        ⟨(run E pre).out ++ (run E rest).out,
         (run E pre).calls ++ (run E rest).calls,
         (run E rest).res⟩ := by
  intro pre
  induction pre with
  | nil => intro rest h; simp [run]
  | cons head tail ih =>
    obtain ⟨id0, s0⟩ := head
    intro rest h
    obtain ⟨n, hn⟩ := h (id0, s0) (List.mem_cons_self _ _)
    have htail : ∀ kv ∈ tail, ∃ n, (walk E kv.2 ⟨kv.1, []⟩).res = Except.ok n :=
      fun kv hk => h kv (List.mem_cons_of_mem _ hk)
    simp only [List.cons_append, run, hn, List.append_eq]
    rw [ih rest htail]
    simp [String.append_assoc]

end codegen

open codegen

/-- Claim C7: for every empty-kind node and each of the four handled
primitive-kind nodes, `walk` returns the Emitter's corresponding primitive
name with no error, leaves the NamePath unchanged, performs no emitter
call, and writes nothing to the sink. -/
theorem C7_primitives_no_effect (E : Emitter) (p : NamePath) :
    walk E .empty p = ⟨p, "", [], .ok E.primitiveEmpty⟩ ∧
    walk E (.type .null) p = ⟨p, "", [], .ok E.primitiveNull⟩ ∧
    walk E (.type .boolean) p = ⟨p, "", [], .ok E.primitiveBoolean⟩ ∧
    walk E (.type .number) p = ⟨p, "", [], .ok E.primitiveNumber⟩ ∧
    walk E (.type .string) p = ⟨p, "", [], .ok E.primitiveString⟩ := by
  refine ⟨?_, ?_, ?_, ?_, ?_⟩ <;> simp [walk]

/-- Claim C9: a node whose kind matches no handled case of the walker's
switch — a type-kind node with an unrecognized primitive type, or a schema
kind without a case — makes `walk` return the empty string as the name
together with no error (the fall-through return), with no emission and no
path change. -/
theorem C9_unhandled_returns_empty_name (E : Emitter) (p : NamePath) :
    walk E (.type .otherType) p = ⟨p, "", [], .ok ""⟩ ∧
    walk E .otherKind p = ⟨p, "", [], .ok ""⟩ := by
  refine ⟨?_, ?_⟩ <;> simp [walk]

/-- Claim C10: the TypeScript emitter's `EmitVariant` executes the struct
template, so its output (name and bytes) coincides with `EmitStruct` on
the same path and property maps and is independent of the `TagName` and
`TagValue` fields of the descriptor. -/
theorem C10_emitVariant_ignores_tag (p : NamePath)
    (tagName1 tagValue1 tagName2 tagValue2 : String)
    (required optional : List (String × String)) :
    typescript.emitter.emitVariant ⟨p, tagName1, tagValue1, required, optional⟩ =
      typescript.emitter.emitStruct ⟨p, required, optional⟩ ∧
    typescript.emitter.emitVariant ⟨p, tagName1, tagValue1, required, optional⟩ =
      typescript.emitter.emitVariant ⟨p, tagName2, tagValue2, required, optional⟩ :=
  ⟨rfl, rfl⟩

/-- Claim C1 (amended): on every successful return, a `walk` call leaves
the NamePath exactly as it found it — every segment pushed before a
recursive descent was popped afterwards.  (On error returns the pushed
segments are not popped; see the counterexample.) -/
theorem C1_path_symmetry_on_success (E : Emitter) (s : Schema) (p : NamePath)
    (n : String) (h : (walk E s p).res = Except.ok n) : (walk E s p).path = p :=
  walk_path_ok E s p n h

theorem C1_path_symmetry_on_success_witness :
    (walk typescript.emitter (.elements (.type .string)) ⟨"root", []⟩).res = Except.ok "Default" ∧
    (walk typescript.emitter (.elements (.type .string)) ⟨"root", []⟩).path = ⟨"root", []⟩ :=
  ⟨by simp [walk, typescript.emitter, typescript.typeName, NamePath.push, NamePath.pop],
   C1_path_symmetry_on_success typescript.emitter (.elements (.type .string)) ⟨"root", []⟩ "Default"
     (by simp [walk, typescript.emitter, typescript.typeName, NamePath.push, NamePath.pop])⟩

/-- Claim C1 is false as stated for error return paths: a discriminator
whose first mapping value is not of kind properties makes `walk` return an
error while the variants-marker segment pushed before the mapping loop is
still on the path, so the segment count after the call differs from the
count before it. -/
theorem C1_counterexample :
    (walk typescript.emitter (.discriminator "t" [] [] [("a", .empty)]) ⟨"root", []⟩).res
      = Except.error mappingErrorMessage ∧
    (walk typescript.emitter (.discriminator "t" [] [] [("a", .empty)]) ⟨"root", []⟩).path.segments.length
      ≠ (⟨"root", []⟩ : NamePath).segments.length := by
  constructor
  · simp [walk, walkMapping, Schema.isProperties, NamePath.push]
  · simp [walk, walkMapping, Schema.isProperties, NamePath.push]

/-- Claim C3 is false in its reporting part: two discriminators whose
offending mapping keys differ ("aaa" vs "bbb") produce byte-for-byte the
same outcome, the fixed error message — the report cannot identify the
offending mapping key. -/
theorem C3_counterexample :
    walk typescript.emitter (.discriminator "t" [] [] [("aaa", .empty)]) ⟨"root", []⟩
      = walk typescript.emitter (.discriminator "t" [] [] [("bbb", .empty)]) ⟨"root", []⟩ ∧
    (walk typescript.emitter (.discriminator "t" [] [] [("aaa", .empty)]) ⟨"root", []⟩).res
      = Except.error mappingErrorMessage := by
  constructor
  · simp [walk, walkMapping, Schema.isProperties]
  · simp [walk, walkMapping, Schema.isProperties]

/-- Claim C3 (amended): if a discriminator mapping entry's schema is not
of kind properties, `walk` fails with a structural error; the error is the
fixed message "schemas within `mapping` must use only properties and
optionalProperties", which does not name the offending mapping key (the
outcome is independent of the key). -/
theorem C3_structural_error_fixed_message (E : Emitter) (tagName : String)
    (props optionalProps : List (String × Schema)) (p : NamePath) :
    (∀ m : List (String × Schema), (∃ kv ∈ m, kv.2.isProperties = false) →
      ∃ e, (walk E (.discriminator tagName props optionalProps m) p).res = Except.error e) ∧
    (∀ (key : String) (v : Schema) (rest : List (String × Schema)), v.isProperties = false →
      walk E (.discriminator tagName props optionalProps ((key, v) :: rest)) p
        = ⟨p.push { variants := true }, "", [], Except.error mappingErrorMessage⟩) := by
  constructor
  · intro m h
    obtain ⟨e, he⟩ :=
      walkMapping_bad_entry_error E tagName props optionalProps m (p.push { variants := true }) h
    exact ⟨e, by simp only [walk, he]⟩
  · intro key v rest hv
    simp only [walk, walkMapping, hv]
    simp

theorem C3_structural_error_fixed_message_witness :
    (Schema.empty.isProperties = false) ∧
    walk typescript.emitter (.discriminator "t" [] [] [("zzz", .empty)]) ⟨"root", []⟩
      = ⟨(⟨"root", []⟩ : NamePath).push { variants := true }, "", [],
         Except.error mappingErrorMessage⟩ :=
  ⟨rfl,
   (C3_structural_error_fixed_message typescript.emitter "t" [] [] ⟨"root", []⟩).2
     "zzz" .empty [] rfl⟩

/-- Claim C5 is false in its "zero types" part: with mapping entries
`[("a", properties), ("b", empty)]` iterated in that order, `walk` returns
the structural error but has already invoked `EmitVariant` for entry "a"
(one variant interface was emitted). -/
theorem C5_counterexample :
    (walk typescript.emitter
        (.discriminator "t" [] [] [("a", .properties [] []), ("b", .empty)]) ⟨"root", []⟩).res
      = Except.error mappingErrorMessage ∧
    (walk typescript.emitter
        (.discriminator "t" [] [] [("a", .properties [] []), ("b", .empty)]) ⟨"root", []⟩).calls
      = [.variant ⟨⟨"root", [{ variants := true }, { property := "a" }]⟩, "t", "a", [], []⟩] ∧
    (walk typescript.emitter
        (.discriminator "t" [] [] [("a", .properties [] []), ("b", .empty)]) ⟨"root", []⟩).out
      = "export interface DefaultVarianta \x7b\n\x7d\n" := by
  refine ⟨?_, ?_, ?_⟩
  · simp [walk, walkMapping, walkProps, Schema.isProperties, typescript.emitter,
      typescript.typeName, typescript.structFmt, typescript.structProperties,
      typescript.htmlEscape, typescript.htmlEscapeChar, NamePath.push, NamePath.pop]
  · simp [walk, walkMapping, walkProps, Schema.isProperties, typescript.emitter,
      typescript.typeName, typescript.structFmt, typescript.structProperties,
      typescript.htmlEscape, typescript.htmlEscapeChar, NamePath.push, NamePath.pop]
  · simp only [walk, walkMapping, walkProps, Schema.isProperties, typescript.emitter,
      typescript.typeName, typescript.structFmt, typescript.structProperties,
      typescript.htmlEscape, typescript.htmlEscapeChar, NamePath.push, NamePath.pop]
    decide

/-- Claim C5 (amended): if any discriminator mapping value is not of kind
properties, `run`/`walk` returns a structural error and the EmitUnion call
for that discriminator node never happens; EmitVariant calls for mapping
entries iterated before the offending one do happen (so "zero types" holds
only when the offending entry is iterated first). -/
theorem C5_error_and_no_union (E : Emitter) (tagName : String)
    (props optionalProps : List (String × Schema)) (m : List (String × Schema)) (p : NamePath)
    (h : ∃ kv ∈ m, kv.2.isProperties = false) :
    (∃ e, (walk E (.discriminator tagName props optionalProps m) p).res = Except.error e) ∧
    ∀ vs : List String,
      EmitCall.union ⟨p, vs⟩ ∉ (walk E (.discriminator tagName props optionalProps m) p).calls := by
  obtain ⟨e, he⟩ :=
    walkMapping_bad_entry_error E tagName props optionalProps m (p.push { variants := true }) h
  constructor
  · exact ⟨e, by simp only [walk, he]⟩
  · intro vs hmem
    simp only [walk, he] at hmem
    have := walkMapping_calls_depth E tagName props optionalProps m
      (p.push { variants := true }) _ hmem
    rw [NamePath.push_segments_length] at this
    simp [EmitCall.path] at this
    omega

theorem C5_error_and_no_union_witness :
    (∃ kv ∈ ([("a", Schema.properties [] []), ("b", Schema.empty)] : List (String × Schema)),
        kv.2.isProperties = false) ∧
    ((∃ e, (walk typescript.emitter
        (.discriminator "t" [] [] [("a", .properties [] []), ("b", .empty)]) ⟨"root", []⟩).res
          = Except.error e) ∧
      ∀ vs : List String,
        EmitCall.union ⟨⟨"root", []⟩, vs⟩ ∉ (walk typescript.emitter
          (.discriminator "t" [] [] [("a", .properties [] []), ("b", .empty)]) ⟨"root", []⟩).calls) :=
  ⟨by decide,
   C5_error_and_no_union typescript.emitter "t" [] []
     [("a", .properties [] []), ("b", .empty)] ⟨"root", []⟩ (by decide)⟩

/-- Claim C6: for an elements node, `walk` pushes the elements marker,
resolves the child under it, pops, then calls `EmitArray` with the
restored path and the child's resolved name, returns exactly the name
`EmitArray` produced, and the array invocation is appended after all of
the child's invocations (bottom-up order). -/
theorem C6_elements_bottom_up (E : Emitter) (child : Schema) (p : NamePath)
    (name n2 bytes : String)
    (hchild : (walk E child (p.push { elements := true })).res = Except.ok name)
    (hemit : E.emitArray ⟨p, name⟩ = Except.ok (n2, bytes)) :
    walk E (.elements child) p =
      ⟨p, (walk E child (p.push { elements := true })).out ++ bytes,
       (walk E child (p.push { elements := true })).calls ++ [.array ⟨p, name⟩],
       Except.ok n2⟩ := by
  have hpath := walk_path_ok E child (p.push { elements := true }) name hchild
  simp only [walk, hchild]
  rw [hpath, NamePath.pop_push, hemit]

theorem C6_elements_bottom_up_witness :
    ((walk typescript.emitter (.type .string)
        ((⟨"root", []⟩ : NamePath).push { elements := true })).res = Except.ok "string") ∧
    (typescript.emitter.emitArray ⟨⟨"root", []⟩, "string"⟩
        = Except.ok ("Default", "export type Default = string[];\n")) ∧
    walk typescript.emitter (.elements (.type .string)) ⟨"root", []⟩ =
      ⟨⟨"root", []⟩,
       (walk typescript.emitter (.type .string)
           ((⟨"root", []⟩ : NamePath).push { elements := true })).out
         ++ "export type Default = string[];\n",
       (walk typescript.emitter (.type .string)
           ((⟨"root", []⟩ : NamePath).push { elements := true })).calls
         ++ [.array ⟨⟨"root", []⟩, "string"⟩],
       Except.ok "Default"⟩ :=
  ⟨by simp [walk, typescript.emitter],
   by rfl,
   C6_elements_bottom_up typescript.emitter (.type .string) ⟨"root", []⟩
     "string" "Default" "export type Default = string[];\n"
     (by simp [walk, typescript.emitter]) (by rfl)⟩

/-- Claim C2: in the discriminator case the walker (a) only kind-checks a
mapping entry's schema and otherwise discards it — replacing every
properties-kind mapping value by the empty properties schema changes
nothing — and (b) resolves the containing discriminator schema's own
required/optional properties and passes the resolved maps, together with
the tag property name and the tag value, to `EmitVariant`. -/
theorem C2_discriminator_resolves_own_properties (E : Emitter) (tagName : String)
    (props optionalProps : List (String × Schema)) (p : NamePath) :
    (∀ m : List (String × Schema), (∀ kv ∈ m, kv.2.isProperties = true) →
      walk E (.discriminator tagName props optionalProps m) p =
        walk E (.discriminator tagName props optionalProps
          (m.map (fun kv => (kv.1, Schema.properties [] [])))) p) ∧
    (∀ (key : String) (v : Schema) (required optional : List (String × String)),
      v.isProperties = true →
      (walkProps E props ((p.push { variants := true }).push { property := key })).res
        = Except.ok required →
      (walkProps E optionalProps
          (walkProps E props ((p.push { variants := true }).push { property := key })).path).res
        = Except.ok optional →
      EmitCall.variant ⟨(p.push { variants := true }).push { property := key },
          tagName, key, required, optional⟩
        ∈ (walk E (.discriminator tagName props optionalProps [(key, v)]) p).calls) := by
  constructor
  · intro m h
    simp only [walk]
    rw [walkMapping_values_discarded E tagName props optionalProps m
      (p.push { variants := true }) h]
  · intro key v required optional hv hreq hopt
    have hrrp := walkProps_path_ok E props
      ((p.push { variants := true }).push { property := key }) required hreq
    have hrop := walkProps_path_ok E optionalProps
      (walkProps E props ((p.push { variants := true }).push { property := key })).path
      optional hopt
    simp only [walk, walkMapping]
    rw [hv]
    simp only [hreq, hopt, eq_self_iff_true, if_true]
    rw [hrop, hrrp]
    cases hemit : E.emitVariant ⟨(p.push { variants := true }).push { property := key },
        tagName, key, required, optional⟩ with
    | error e => simp [hemit]
    | ok nb =>
      simp only [hemit, walkMapping]
      cases hunion : E.emitUnion ⟨((p.push { variants := true }).push { property := key }).pop.pop,
          [nb.1]⟩ with
      | error e => simp [hunion]
      | ok nb2 => simp [hunion]

theorem C2_discriminator_resolves_own_properties_witness :
    ((∀ kv ∈ ([("a", Schema.properties [("y", .type .boolean)] [])] : List (String × Schema)),
        kv.2.isProperties = true) ∧
      walk typescript.emitter
          (.discriminator "t" [("x", .type .string)] []
            [("a", .properties [("y", .type .boolean)] [])]) ⟨"root", []⟩
        = walk typescript.emitter
          (.discriminator "t" [("x", .type .string)] []
            (([("a", Schema.properties [("y", .type .boolean)] [])]).map
              (fun kv => (kv.1, Schema.properties [] [])))) ⟨"root", []⟩) ∧
    ((Schema.properties [("y", .type .boolean)] []).isProperties = true ∧
      (walkProps typescript.emitter [("x", .type .string)]
          (((⟨"root", []⟩ : NamePath).push { variants := true }).push { property := "a" })).res
        = Except.ok [("x", "string")] ∧
      (walkProps typescript.emitter []
          (walkProps typescript.emitter [("x", .type .string)]
            (((⟨"root", []⟩ : NamePath).push { variants := true }).push { property := "a" })).path).res
        = Except.ok [] ∧
      EmitCall.variant ⟨((⟨"root", []⟩ : NamePath).push { variants := true }).push { property := "a" },
          "t", "a", [("x", "string")], []⟩
        ∈ (walk typescript.emitter
            (.discriminator "t" [("x", .type .string)] []
              [("a", .properties [("y", .type .boolean)] [])]) ⟨"root", []⟩).calls) :=
  ⟨⟨by decide,
    (C2_discriminator_resolves_own_properties typescript.emitter "t"
        [("x", .type .string)] [] ⟨"root", []⟩).1
      [("a", .properties [("y", .type .boolean)] [])] (by decide)⟩,
   by decide,
   by simp [walkProps, walk, typescript.emitter],
   by simp [walkProps],
   (C2_discriminator_resolves_own_properties typescript.emitter "t"
       [("x", .type .string)] [] ⟨"root", []⟩).2
     "a" (.properties [("y", .type .boolean)] []) [("x", "string")] [] (by decide)
     (by simp [walkProps, walk, typescript.emitter])
     (by simp [walkProps])⟩

/-- Claim C4: `Run` iterates the registry in order, gives each root a
fresh NamePath seeded with the root's identifier and an empty segment
list, and returns the first error; the result is independent of the roots
after the failing one (they are not processed), and the output is what the
successful prefix wrote followed by the failing root's partial output. -/
theorem C4_run_first_error_aborts (E : Emitter) (pre : List (String × Schema))
    (id : String) (s : Schema) (post : List (String × Schema)) (e : String)
    (hpre : ∀ kv ∈ pre, ∃ n, (walk E kv.2 ⟨kv.1, []⟩).res = Except.ok n)
    (herr : (walk E s ⟨id, []⟩).res = Except.error e) :
    run E (pre ++ (id, s) :: post) = run E (pre ++ [(id, s)]) ∧
    (run E (pre ++ (id, s) :: post)).res = Except.error e ∧
    (run E (pre ++ (id, s) :: post)).out = (run E pre).out ++ (walk E s ⟨id, []⟩).out ∧
    (run E (pre ++ (id, s) :: post)).calls = (run E pre).calls ++ (walk E s ⟨id, []⟩).calls := by
  have h1 := run_append_ok E pre ((id, s) :: post) hpre
  have h2 := run_append_ok E pre [(id, s)] hpre
  have hsingle : ∀ rest : List (String × Schema), run E ((id, s) :: rest) =
      ⟨(walk E s ⟨id, []⟩).out, (walk E s ⟨id, []⟩).calls, Except.error e⟩ := by
    intro rest
    simp only [run, herr]
  rw [h1, h2, hsingle post, hsingle []]
  simp

theorem C4_run_first_error_aborts_witness :
    (∀ kv ∈ ([("r1", Schema.empty)] : List (String × Schema)),
        ∃ n, (walk typescript.emitter kv.2 ⟨kv.1, []⟩).res = Except.ok n) ∧
    ((walk typescript.emitter (.discriminator "t" [] [] [("b", .empty)]) ⟨"r2", []⟩).res
        = Except.error mappingErrorMessage) ∧
    (run typescript.emitter
        ([("r1", .empty)] ++ ("r2", .discriminator "t" [] [] [("b", .empty)]) :: [("r3", .type .null)])
      = run typescript.emitter
        ([("r1", .empty)] ++ [("r2", .discriminator "t" [] [] [("b", .empty)])])) := by
  have hp : ∀ kv ∈ ([("r1", Schema.empty)] : List (String × Schema)),
      ∃ n, (walk typescript.emitter kv.2 ⟨kv.1, []⟩).res = Except.ok n := by
    intro kv hk
    simp only [List.mem_singleton] at hk
    subst hk
    exact ⟨"any", by simp [walk, typescript.emitter]⟩
  have he : (walk typescript.emitter (.discriminator "t" [] [] [("b", .empty)]) ⟨"r2", []⟩).res
      = Except.error mappingErrorMessage := by
    simp [walk, walkMapping, Schema.isProperties]
  exact ⟨hp, he,
    (C4_run_first_error_aborts typescript.emitter [("r1", .empty)] "r2"
      (.discriminator "t" [] [] [("b", .empty)]) [("r3", .type .null)]
      mappingErrorMessage hp he).1⟩

/-- Claim C8 is false for the byte output: the registry value is the same
Go map whether its properties map is iterated as [a, b] or [b, a] (Go does
not fix a map iteration order across runs), yet the two orders yield
different output bytes (the struct members are rendered in iteration
order). -/
theorem C8_counterexample :
    ([("a", Schema.type .string), ("b", Schema.type .number)] : List (String × Schema)).Perm
        [("b", Schema.type .number), ("a", Schema.type .string)] ∧
    (run typescript.emitter
        [("root", .properties [("a", .type .string), ("b", .type .number)] [])]).out
      ≠ (run typescript.emitter
        [("root", .properties [("b", .type .number), ("a", .type .string)] [])]).out := by
  constructor
  · exact List.Perm.swap _ _ _
  · simp only [run, walk, walkProps, Schema.isProperties, typescript.emitter,
      typescript.typeName, typescript.structFmt, typescript.structProperties,
      typescript.htmlEscape, typescript.htmlEscapeChar, NamePath.push, NamePath.pop]
    decide

/-- Claim C8 (amended): with the iteration order of every map fixed, two
runs are identical (the embedding is a function of the ordered tree); when
only the iteration order of a properties map differs between two runs, the
emitted bytes and the order of emissions may change, but each emitted type
keeps its path-derived name: the multiset of generated names and the
returned name are unchanged. -/
theorem C8_names_multiset_invariant (req1 req2 optionalProps : List (String × Schema))
    (p : NamePath) (hperm : req1.Perm req2)
    (hreq : ∀ kv ∈ req1, childOk typescript.emitter p kv)
    (hopt : ∀ kv ∈ optionalProps, childOk typescript.emitter p kv) :
    ((walk typescript.emitter (.properties req1 optionalProps) p).calls.map
        typescript.callName).Perm
      ((walk typescript.emitter (.properties req2 optionalProps) p).calls.map
        typescript.callName) ∧
    (walk typescript.emitter (.properties req1 optionalProps) p).res
      = (walk typescript.emitter (.properties req2 optionalProps) p).res := by
  have hreq2 : ∀ kv ∈ req2, childOk typescript.emitter p kv :=
    fun kv hk => hreq kv (hperm.mem_iff.mpr hk)
  obtain ⟨hp1, hc1, names1, hr1⟩ := walkProps_decomp typescript.emitter p req1 hreq
  obtain ⟨hp2, hc2, names2, hr2⟩ := walkProps_decomp typescript.emitter p req2 hreq2
  obtain ⟨hpo, hco, nameso, hro⟩ := walkProps_decomp typescript.emitter p optionalProps hopt
  have emitStruct_ok : ∀ d : Struct, typescript.emitter.emitStruct d =
      Except.ok (typescript.typeName d.path.segments,
        typescript.structFmt (typescript.typeName d.path.segments)
          (typescript.structProperties d.requiredProperties d.optionalProperties)) :=
    fun d => rfl
  simp only [walk, hr1, hr2]
  rw [hp1, hp2]
  simp only [hro]
  rw [hpo]
  simp only [emitStruct_ok]
  constructor
  · simp only [List.map_append, List.map_cons, List.map_nil, typescript.callName,
      EmitCall.path, List.append_assoc]
    refine List.Perm.append_right _ ?_
    rw [hc1, hc2]
    simp only [List.map_flatten, List.map_map]
    exact (hperm.map _).flatten
  · trivial

theorem C8_names_multiset_invariant_witness :
    (([("a", Schema.type .string), ("b", Schema.elements (.type .number))]
        : List (String × Schema)).Perm
      [("b", Schema.elements (.type .number)), ("a", Schema.type .string)] ∧
     (∀ kv ∈ ([("a", Schema.type .string), ("b", Schema.elements (.type .number))]
        : List (String × Schema)), childOk typescript.emitter ⟨"root", []⟩ kv) ∧
     (∀ kv ∈ ([] : List (String × Schema)), childOk typescript.emitter ⟨"root", []⟩ kv)) ∧
    ((walk typescript.emitter
        (.properties [("a", .type .string), ("b", .elements (.type .number))] [])
        ⟨"root", []⟩).calls.map typescript.callName).Perm
      ((walk typescript.emitter
        (.properties [("b", .elements (.type .number)), ("a", .type .string)] [])
        ⟨"root", []⟩).calls.map typescript.callName) := by
  have hperm : ([("a", Schema.type .string), ("b", Schema.elements (.type .number))]
      : List (String × Schema)).Perm
      [("b", Schema.elements (.type .number)), ("a", Schema.type .string)] :=
    List.Perm.swap _ _ _
  have hreq : ∀ kv ∈ ([("a", Schema.type .string), ("b", Schema.elements (.type .number))]
      : List (String × Schema)), childOk typescript.emitter ⟨"root", []⟩ kv := by
    intro kv hk
    simp only [List.mem_cons, List.mem_singleton] at hk
    rcases hk with hk | hk | hk <;> first
      | (subst hk
         simp [childOk, walk, typescript.emitter, typescript.typeName,
           NamePath.push, NamePath.pop])
      | simp at hk
  have hopt : ∀ kv ∈ ([] : List (String × Schema)), childOk typescript.emitter ⟨"root", []⟩ kv := by
    intro kv hk
    simp at hk
  exact ⟨⟨hperm, hreq, hopt⟩,
    (C8_names_multiset_invariant
      [("a", .type .string), ("b", .elements (.type .number))]
      [("b", .elements (.type .number)), ("a", .type .string)] [] ⟨"root", []⟩
      hperm hreq hopt).1⟩
